import Mathlib

/-!
Verification of the leave-management workflow core of the LMS repository.

The embedding models:
- dates as proleptic-Gregorian ordinals (Python `date.toordinal`), so that
  `date.fromordinal(d.toordinal() + 1)` is `d + 1` and `d.weekday()` is
  `(d + 6) % 7` (ordinal 1, year 1 Jan 1, is a Monday, weekday 0);
- the database as lists of rows (SQLAlchemy `query(...).filter(...).first()`
  becomes `List.find?`, in-place mutation of the found ORM row becomes an
  update of the first matching list element);
- each HTTP handler of the employee / manager / admin routers as a function
  from the database state to `Except ApiError` of the new state, with one
  `ApiError` constructor per distinct `HTTPException` raise site.
-/

namespace LMS

/-- Python `date.weekday()`: Monday is 0, Sunday is 6.  Ordinal 1 is a
Monday, so `weekday d = (d - 1) % 7`; we write `(d + 6) % 7`, which agrees
for every ordinal and is total on `Nat`. -/
def weekday (d : Nat) : Nat := (d + 6) % 7

/-- `_calculate_business_days` from `api-employee-router.py` lines 239-250
(the copy in `api-manager-router.py` lines 258-269 is textually identical):
a loop from `start_date` to `end_date` inclusive counting days whose
`weekday()` is below 5. -/
def businessDays (start_date end_date : Nat) : Nat :=
  if h : start_date ≤ end_date then
    (if weekday start_date < 5 then 1 else 0) + businessDays (start_date + 1) end_date
  else
    0
termination_by end_date + 1 - start_date
decreasing_by
  simp_wf
  omega

/-- The condition `current_date.weekday() < 5` of the loop body, as a
Boolean predicate on dates. -/
def isWeekday (d : Nat) : Bool := decide (weekday d < 5)

theorem businessDays_le (s e : Nat) (h : s ≤ e) :
    businessDays s e = (if weekday s < 5 then 1 else 0) + businessDays (s + 1) e := by
  conv_lhs => rw [businessDays.eq_def]
  rw [dif_pos h]

theorem businessDays_gt (s e : Nat) (h : e < s) : businessDays s e = 0 := by
  rw [businessDays.eq_def, dif_neg (by omega)]

theorem businessDays_count (n s : Nat) :
    businessDays s (s + n) = ((List.range' s (n + 1)).filter isWeekday).length := by
  induction n generalizing s with
  | zero =>
    rw [Nat.add_zero, businessDays_le s s (Nat.le_refl s),
      businessDays_gt (s + 1) s (by omega), List.range'_one]
    by_cases h : weekday s < 5 <;> simp [isWeekday, h]
  | succ n ih =>
    rw [businessDays_le s (s + (n + 1)) (by omega)]
    have harg : s + (n + 1) = (s + 1) + n := by omega
    rw [harg, ih (s + 1)]
    conv_rhs => rw [List.range'_succ]
    rw [List.filter_cons]
    by_cases h : weekday s < 5
    all_goals simp [isWeekday, h]
    all_goals omega

theorem businessDays_week (s : Nat) : businessDays s (s + 6) = 5 := by
  rw [businessDays_le s (s + 6) (by omega),
    businessDays_le (s + 1) (s + 6) (by omega),
    businessDays_le (s + 1 + 1) (s + 6) (by omega),
    businessDays_le (s + 1 + 1 + 1) (s + 6) (by omega),
    businessDays_le (s + 1 + 1 + 1 + 1) (s + 6) (by omega),
    businessDays_le (s + 1 + 1 + 1 + 1 + 1) (s + 6) (by omega),
    businessDays_le (s + 1 + 1 + 1 + 1 + 1 + 1) (s + 6) (by omega),
    businessDays_gt (s + 1 + 1 + 1 + 1 + 1 + 1 + 1) (s + 6) (by omega)]
  unfold weekday
  split_ifs <;> omega

theorem businessDays_split : ∀ (k s m e : Nat), m + 1 - s = k → s ≤ m + 1 → m ≤ e →
    businessDays s e = businessDays s m + businessDays (m + 1) e := by
  intro k
  induction k with
  | zero =>
    intro s m e hk h1 h2
    have hs : s = m + 1 := by omega
    subst hs
    rw [businessDays_gt (m + 1) m (by omega)]
    omega
  | succ k ih =>
    intro s m e hk h1 h2
    have hsm : s ≤ m := by omega
    rw [businessDays_le s e (by omega), businessDays_le s m hsm,
      ih (s + 1) m e (by omega) (by omega) h2]
    omega

theorem businessDays_two_weeks (d : Nat) : businessDays d (d + 13) = 10 := by
  rw [businessDays_split (d + 7 - d) d (d + 6) (d + 13) rfl (by omega) (by omega),
    businessDays_week d]
  have h1 : d + 6 + 1 = d + 7 := by omega
  have h2 : d + 13 = (d + 7) + 6 := by omega
  rw [h1, h2, businessDays_week (d + 7)]

/-- `RequestStatus` from `api-models.py`. -/
inductive RequestStatus where
  | PENDING
  | APPROVED
  | REJECTED
  | CANCELLED
deriving DecidableEq

/-- The `users` table from `api-models.py`, restricted to the columns the
workflow reads (`id`, `manager_id`); `username`, `email` and `role` only
feed logging, notification text and the role gate, which are external. -/
structure User where
  id : Nat
  manager_id : Option Nat
deriving DecidableEq

/-- The `leave_types` table from `api-models.py`. -/
structure LeaveType where
  id : Nat
  default_quota : Int
deriving DecidableEq

/-- The `leave_balances` table from `api-models.py`: `remaining_days` is a
plain SQL `Integer`, so it is modelled as `Int` (admin override may store
any integer, including a negative one). -/
structure LeaveBalance where
  user_id : Nat
  leave_type_id : Nat
  remaining_days : Int
deriving DecidableEq

/-- The `leave_requests` table from `api-models.py`.  `requested_at` and
`decided_at` are timestamps, modelled as abstract `Nat` instants. -/
structure LeaveRequest where
  id : Nat
  employee_id : Nat
  manager_id : Nat
  leave_type_id : Nat
  start_date : Nat
  end_date : Nat
  status : RequestStatus
  notes : Option String
  requested_at : Nat
  decided_at : Option Nat
deriving DecidableEq

/-- The database state seen by the workflow handlers: one list of rows per
table (`corporate_holidays` is kept as its list of dates; `description` is
never read by the workflow). -/
structure DB where
  users : List User
  leaveTypes : List LeaveType
  requests : List LeaveRequest
  balances : List LeaveBalance
  holidays : List Nat
deriving DecidableEq

/-- One constructor per distinct `HTTPException` raise site on the workflow
paths of `api-employee-router.py` (`create_leave_request`),
`api-manager-router.py` (`approve_request`, `reject_request`) and
`api-admin-router.py` (`update_leave_balance`). -/
inductive ApiError where
  | noManager
  | startAfterEnd
  | pastStart
  | noBusinessDays
  | holidayConflict (dates : List Nat)
  | balanceNotFoundSubmit
  | insufficientBalanceSubmit (available : Int) (requested : Nat)
  | requestNotFound
  | balanceNotFoundApprove
  | insufficientBalance
  | userNotFound
  | leaveTypeNotFound
deriving DecidableEq

/-- The HTTP status code each raise site uses in the source. -/
def statusCode : ApiError → Nat
  | .noManager => 400
  | .startAfterEnd => 400
  | .pastStart => 400
  | .noBusinessDays => 400
  | .holidayConflict _ => 422
  | .balanceNotFoundSubmit => 400
  | .insufficientBalanceSubmit _ _ => 400
  | .requestNotFound => 404
  | .balanceNotFoundApprove => 400
  | .insufficientBalance => 400
  | .userNotFound => 404
  | .leaveTypeNotFound => 404

/-- The spec's ValidationError class (section 7): malformed or
out-of-policy input — date ordering, past dates, no business days,
missing manager. -/
def isValidationError : ApiError → Bool
  | .noManager => true
  | .startAfterEnd => true
  | .pastStart => true
  | .noBusinessDays => true
  | _ => false

/-- Apply `f` to the first element satisfying `p`, leaving every other
element unchanged.  This is how an in-place mutation of the row returned by
`query(...).filter(...).first()` acts on the table. -/
def updateFirst (p : α → Bool) (f : α → α) : List α → List α
  | [] => []
  | x :: xs => if p x then f x :: xs else x :: updateFirst p f xs

/-- The filter of the decision handlers (`api-manager-router.py` lines
94-98 and 172-176): the request with this id, owned by this manager,
still PENDING — all three conditions in one query. -/
def pendingFor (request_id manager_id : Nat) (r : LeaveRequest) : Bool :=
  decide (r.id = request_id ∧ r.manager_id = manager_id ∧ r.status = RequestStatus.PENDING)

/-- The balance-row filter used by both routers: user id and leave-type id. -/
def balanceKey (user_id leave_type_id : Nat) (b : LeaveBalance) : Bool :=
  decide (b.user_id = user_id ∧ b.leave_type_id = leave_type_id)

/-- `approve_request` from `api-manager-router.py` lines 85-160: load the
PENDING request owned by the caller (404 if none), recompute its business
days, load the employee's balance row (400 if none), reject with 400 if
`remaining_days < days_requested`, otherwise set the request APPROVED with
`decided_at = now`, debit the balance, and commit both in one transaction
(the single `db.commit()` at line 133). -/
def approve_request (db : DB) (manager_id request_id now : Nat) : Except ApiError DB :=
  match db.requests.find? (pendingFor request_id manager_id) with
  | none => .error .requestNotFound
  | some request =>
    match db.balances.find? (balanceKey request.employee_id request.leave_type_id) with
    | none => .error .balanceNotFoundApprove
    | some balance =>
      if balance.remaining_days < (businessDays request.start_date request.end_date : Int) then
        .error .insufficientBalance
      else
        .ok { db with
          requests := updateFirst (pendingFor request_id manager_id)
            (fun r => { r with status := .APPROVED, decided_at := some now }) db.requests
          balances := updateFirst (balanceKey request.employee_id request.leave_type_id)
            (fun b => { b with remaining_days :=
                b.remaining_days - (businessDays request.start_date request.end_date : Int) })
            db.balances }

/-- `reject_request` from `api-manager-router.py` lines 163-214: load the
PENDING request owned by the caller (404 if none), set it REJECTED with
`decided_at = now`, and commit.  No balance row is touched. -/
def reject_request (db : DB) (manager_id request_id now : Nat) : Except ApiError DB :=
  match db.requests.find? (pendingFor request_id manager_id) with
  | none => .error .requestNotFound
  | some _ =>
    .ok { db with
      requests := updateFirst (pendingFor request_id manager_id)
        (fun r => { r with status := .REJECTED, decided_at := some now }) db.requests }

/-- The request body of `POST /employee/requests` (`LeaveRequestCreate`). -/
structure LeaveRequestCreate where
  leave_type_id : Nat
  start_date : Nat
  end_date : Nat
  notes : Option String
deriving DecidableEq

/-- `create_leave_request` from `api-employee-router.py` lines 86-197, in
the source's check order: missing manager (400; Python truthiness, so a
`manager_id` of `None` — modelled as `none` or a zero id — fails), start
after end (400), start before today (400), zero business days (400),
holiday overlap (422, carrying every holiday inside the range), missing
balance row (400), insufficient balance (400); otherwise append a new
PENDING request with `manager_id` copied from the employee.  `new_id` is
the primary key the database assigns; `now` the `requested_at` instant. -/
def create_leave_request (db : DB) (employee : User) (data : LeaveRequestCreate)
    (today new_id now : Nat) : Except ApiError DB :=
  if employee.manager_id.getD 0 = 0 then
    .error .noManager
  else if data.end_date < data.start_date then
    .error .startAfterEnd
  else if data.start_date < today then
    .error .pastStart
  else if businessDays data.start_date data.end_date = 0 then
    .error .noBusinessDays
  else if db.holidays.filter
      (fun h => decide (data.start_date ≤ h ∧ h ≤ data.end_date)) ≠ [] then
    .error (.holidayConflict (db.holidays.filter
      (fun h => decide (data.start_date ≤ h ∧ h ≤ data.end_date))))
  else
    match db.balances.find? (balanceKey employee.id data.leave_type_id) with
    | none => .error .balanceNotFoundSubmit
    | some balance =>
      if balance.remaining_days < (businessDays data.start_date data.end_date : Int) then
        .error (.insufficientBalanceSubmit balance.remaining_days
          (businessDays data.start_date data.end_date))
      else
        .ok { db with
          requests := db.requests ++ [{
            id := new_id
            employee_id := employee.id
            manager_id := employee.manager_id.getD 0
            leave_type_id := data.leave_type_id
            start_date := data.start_date
            end_date := data.end_date
            status := .PENDING
            notes := data.notes
            requested_at := now
            decided_at := none }] }

/-- `update_leave_balance` from `api-admin-router.py` lines 153-208 (admin
override): if a balance row for `(user_id, leave_type_id)` exists, store
`remaining_days` into it verbatim — no validation, any integer; otherwise
check the user (404) and the leave type (404) and insert a fresh row. -/
def update_leave_balance (db : DB) (user_id leave_type_id : Nat)
    (remaining_days : Int) : Except ApiError DB :=
  match db.balances.find? (balanceKey user_id leave_type_id) with
  | some _ =>
    .ok { db with
      balances := updateFirst (balanceKey user_id leave_type_id)
        (fun b => { b with remaining_days := remaining_days }) db.balances }
  | none =>
    match db.users.find? (fun u => decide (u.id = user_id)) with
    | none => .error .userNotFound
    | some _ =>
      match db.leaveTypes.find? (fun t => decide (t.id = leave_type_id)) with
      | none => .error .leaveTypeNotFound
      | some _ =>
        .ok { db with
          balances := db.balances ++ [⟨user_id, leave_type_id, remaining_days⟩] }

theorem updateFirst_eq_set (p : α → Bool) (f : α → α) (l : List α) (x : α)
    (h : l.find? p = some x) :
    ∃ i, l[i]? = some x ∧ updateFirst p f l = l.set i (f x) := by
  induction l with
  | nil => simp [List.find?] at h
  | cons a t ih =>
    by_cases hp : p a
    · rw [List.find?_cons_of_pos _ hp] at h
      obtain rfl : a = x := by injection h
      exact ⟨0, by simp, by simp [updateFirst, hp]⟩
    · rw [List.find?_cons_of_neg _ hp] at h
      obtain ⟨i, hi, hu⟩ := ih h
      exact ⟨i + 1, by simpa using hi, by simp [updateFirst, hp, hu]⟩

/-- Evaluation form of the loop: the count of weekday members of the
inclusive range, with the empty range when `start_date > end_date`. -/
theorem businessDays_eval (s e : Nat) :
    businessDays s e = ((List.range' s (e + 1 - s)).filter isWeekday).length := by
  by_cases h : s ≤ e
  · have h1 : e + 1 - s = (e - s) + 1 := by omega
    have hn : e = s + (e - s) := by omega
    rw [h1]
    conv_lhs => rw [hn]
    exact businessDays_count (e - s) s
  · have h0 : e + 1 - s = 0 := by omega
    rw [h0, businessDays_gt s e (by omega)]
    rfl

/-- C2: for start ≤ end, `businessDays` counts exactly the Monday–Friday
calendar days of the inclusive range; in particular a single weekday
counts 1 and a single weekend day 0, Monday to Friday of one week is 5,
Saturday–Sunday is 0, and any range of exactly two full weeks is 10. -/
theorem businessDays_correct :
    (∀ s e : Nat, s ≤ e →
      businessDays s e = ((List.range' s (e + 1 - s)).filter isWeekday).length)
    ∧ (∀ d : Nat, businessDays d d = if weekday d < 5 then 1 else 0)
    ∧ (∀ d : Nat, weekday d = 0 → businessDays d (d + 4) = 5)
    ∧ (∀ d : Nat, weekday d = 5 → businessDays d (d + 1) = 0)
    ∧ (∀ d : Nat, businessDays d (d + 13) = 10) := by
  refine ⟨fun s e _ => businessDays_eval s e, ?_, ?_, ?_, businessDays_two_weeks⟩
  · intro d
    rw [businessDays_le d d (Nat.le_refl d), businessDays_gt (d + 1) d (by omega)]
    split_ifs <;> rfl
  · intro d hd
    rw [businessDays_le d (d + 4) (by omega),
      businessDays_le (d + 1) (d + 4) (by omega),
      businessDays_le (d + 1 + 1) (d + 4) (by omega),
      businessDays_le (d + 1 + 1 + 1) (d + 4) (by omega),
      businessDays_le (d + 1 + 1 + 1 + 1) (d + 4) (by omega),
      businessDays_gt (d + 1 + 1 + 1 + 1 + 1) (d + 4) (by omega)]
    unfold weekday at hd ⊢
    split_ifs <;> omega
  · intro d hd
    rw [businessDays_le d (d + 1) (by omega),
      businessDays_le (d + 1) (d + 1) (by omega),
      businessDays_gt (d + 1 + 1) (d + 1) (by omega)]
    unfold weekday at hd ⊢
    split_ifs <;> omega

/-- Witness for C2 at concrete dates: ordinal 8 is a Monday, 12 the Friday
of the same week, 13-14 a weekend, and 8-21 exactly two full weeks. -/
theorem businessDays_correct_witness :
    (8 : Nat) ≤ 12
    ∧ businessDays 8 12 = ((List.range' 8 5).filter isWeekday).length
    ∧ businessDays 9 9 = (if weekday 9 < 5 then 1 else 0)
    ∧ weekday 8 = 0 ∧ businessDays 8 12 = 5
    ∧ weekday 13 = 5 ∧ businessDays 13 14 = 0
    ∧ businessDays 8 21 = 10 := by
  refine ⟨by decide, businessDays_correct.1 8 12 (by decide),
    businessDays_correct.2.1 9, by decide,
    businessDays_correct.2.2.1 8 (by decide), by decide,
    businessDays_correct.2.2.2.1 13 (by decide),
    businessDays_correct.2.2.2.2 8⟩

/-- C10: the loop of `_calculate_business_days` always terminates (this
embedding is total and bounds the count by the step budget of the loop),
returns a non-negative integer, and returns 0 without running the body
when `start_date > end_date`. -/
theorem businessDays_total :
    ∀ start_date end_date : Nat,
      (end_date < start_date → businessDays start_date end_date = 0)
      ∧ 0 ≤ (businessDays start_date end_date : Int)
      ∧ businessDays start_date end_date ≤ end_date + 1 - start_date := by
  intro s e
  refine ⟨fun h => businessDays_gt s e h, by positivity, ?_⟩
  rw [businessDays_eval s e]
  calc ((List.range' s (e + 1 - s)).filter isWeekday).length
      ≤ (List.range' s (e + 1 - s)).length := List.length_filter_le _ _
    _ = e + 1 - s := List.length_range' _ _ _

/-- C1: when a PENDING request owned by the deciding manager is approved
and the employee's balance for the request's leave type covers its
business days, `approve_request` succeeds and the new state differs from
the old one exactly by: that one balance row debited by
`businessDays(start_date, end_date)`, and that one request row set to
APPROVED with `decided_at = now` — one atomic result state; every other
balance row (and every other table) is unchanged. -/
theorem approve_debits_and_approves
    (db : DB) (manager_id request_id now : Nat) (r : LeaveRequest) (bal : LeaveBalance)
    (hr : db.requests.find? (pendingFor request_id manager_id) = some r)
    (hb : db.balances.find? (balanceKey r.employee_id r.leave_type_id) = some bal)
    (hsuff : (businessDays r.start_date r.end_date : Int) ≤ bal.remaining_days) :
    ∃ db', approve_request db manager_id request_id now = .ok db'
      ∧ (∃ i, db.balances[i]? = some bal ∧
          db'.balances = db.balances.set i
            { bal with remaining_days :=
                bal.remaining_days - (businessDays r.start_date r.end_date : Int) })
      ∧ (∃ j, db.requests[j]? = some r ∧
          db'.requests = db.requests.set j
            { r with status := .APPROVED, decided_at := some now })
      ∧ db'.users = db.users ∧ db'.leaveTypes = db.leaveTypes
      ∧ db'.holidays = db.holidays := by
  have hres : approve_request db manager_id request_id now = .ok { db with
      requests := updateFirst (pendingFor request_id manager_id)
        (fun q => { q with status := .APPROVED, decided_at := some now }) db.requests
      balances := updateFirst (balanceKey r.employee_id r.leave_type_id)
        (fun b => { b with remaining_days :=
            b.remaining_days - (businessDays r.start_date r.end_date : Int) })
        db.balances } := by
    unfold approve_request
    rw [hr]
    simp only []
    rw [hb]
    simp only []
    rw [if_neg (by omega)]
  obtain ⟨i, hi, hui⟩ := updateFirst_eq_set _ _ db.balances bal hb
  obtain ⟨j, hj, huj⟩ := updateFirst_eq_set _ _ db.requests r hr
  exact ⟨_, hres, ⟨i, hi, hui⟩, ⟨j, hj, huj⟩, rfl, rfl, rfl⟩

/-- A concrete PENDING request: employee 1, manager 2, leave type 1,
Monday ordinal 8 through Friday ordinal 12. -/
def reqA : LeaveRequest :=
  { id := 1, employee_id := 1, manager_id := 2, leave_type_id := 1,
    start_date := 8, end_date := 12, status := .PENDING, notes := none,
    requested_at := 0, decided_at := none }

/-- Employee 1's balance of 10 remaining days for leave type 1. -/
def balA : LeaveBalance := ⟨1, 1, 10⟩

/-- A concrete database: two users, one leave type, one PENDING request,
one balance row, no holidays. -/
def dbA : DB :=
  { users := [⟨1, some 2⟩, ⟨2, none⟩], leaveTypes := [⟨1, 20⟩],
    requests := [reqA], balances := [balA], holidays := [] }

/-- Witness for C1: approving request 1 of `dbA` as manager 2 debits the
single balance row from 10 by the 5 business days of Monday–Friday. -/
theorem approve_debits_and_approves_witness :
    ∃ db', approve_request dbA 2 1 100 = .ok db'
      ∧ (∃ i, dbA.balances[i]? = some balA ∧
          db'.balances = dbA.balances.set i
            { balA with remaining_days :=
                balA.remaining_days - (businessDays reqA.start_date reqA.end_date : Int) })
      ∧ (∃ j, dbA.requests[j]? = some reqA ∧
          db'.requests = dbA.requests.set j
            { reqA with status := .APPROVED, decided_at := some 100 })
      ∧ db'.users = dbA.users ∧ db'.leaveTypes = dbA.leaveTypes
      ∧ db'.holidays = dbA.holidays := by
  apply approve_debits_and_approves dbA 2 1 100 reqA balA rfl rfl
  have h5 : businessDays 8 12 = 5 := by rw [businessDays_eval]; rfl
  show (businessDays 8 12 : Int) ≤ 10
  rw [h5]
  decide

/-- C6: rejecting a PENDING request owned by the calling manager sets that
request to REJECTED with `decided_at = now`, changes none of its other
fields, changes no other request, and leaves every `LeaveBalance` row (and
every other table) untouched. -/
theorem reject_changes_status_only
    (db : DB) (manager_id request_id now : Nat) (r : LeaveRequest)
    (hr : db.requests.find? (pendingFor request_id manager_id) = some r) :
    ∃ db', reject_request db manager_id request_id now = .ok db'
      ∧ db'.balances = db.balances
      ∧ (∃ j, db.requests[j]? = some r ∧
          db'.requests = db.requests.set j
            { r with status := .REJECTED, decided_at := some now })
      ∧ db'.users = db.users ∧ db'.leaveTypes = db.leaveTypes
      ∧ db'.holidays = db.holidays := by
  have hres : reject_request db manager_id request_id now = .ok { db with
      requests := updateFirst (pendingFor request_id manager_id)
        (fun q => { q with status := .REJECTED, decided_at := some now }) db.requests } := by
    unfold reject_request
    rw [hr]
  obtain ⟨j, hj, huj⟩ := updateFirst_eq_set _ _ db.requests r hr
  exact ⟨_, hres, rfl, ⟨j, hj, huj⟩, rfl, rfl, rfl⟩

/-- Witness for C6: rejecting request 1 of `dbA` as manager 2. -/
theorem reject_changes_status_only_witness :
    ∃ db', reject_request dbA 2 1 100 = .ok db'
      ∧ db'.balances = dbA.balances
      ∧ (∃ j, dbA.requests[j]? = some reqA ∧
          db'.requests = dbA.requests.set j
            { reqA with status := .REJECTED, decided_at := some 100 })
      ∧ db'.users = dbA.users ∧ db'.leaveTypes = dbA.leaveTypes
      ∧ db'.holidays = dbA.holidays :=
  reject_changes_status_only dbA 2 1 100 reqA rfl

theorem create_ok_frame (db : DB) (emp : User) (dat : LeaveRequestCreate)
    (today nid now : Nat) (db' : DB)
    (h : create_leave_request db emp dat today nid now = .ok db') :
    db'.balances = db.balances ∧ db'.users = db.users
    ∧ db'.leaveTypes = db.leaveTypes ∧ db'.holidays = db.holidays := by
  unfold create_leave_request at h
  repeat' split at h
  any_goals exact (Except.noConfusion h)
  obtain rfl := (Except.ok.inj h)
  exact ⟨rfl, rfl, rfl, rfl⟩

theorem reject_ok_inv (db : DB) (m rid now : Nat) (db' : DB)
    (h : reject_request db m rid now = .ok db') :
    db'.balances = db.balances ∧ db'.users = db.users
    ∧ db'.leaveTypes = db.leaveTypes ∧ db'.holidays = db.holidays := by
  unfold reject_request at h
  split at h
  · exact (Except.noConfusion h)
  obtain rfl := (Except.ok.inj h)
  exact ⟨rfl, rfl, rfl, rfl⟩

theorem approve_ok_inv (db : DB) (m rid now : Nat) (db' : DB)
    (h : approve_request db m rid now = .ok db') :
    ∃ r bal, db.requests.find? (pendingFor rid m) = some r
      ∧ db.balances.find? (balanceKey r.employee_id r.leave_type_id) = some bal
      ∧ (businessDays r.start_date r.end_date : Int) ≤ bal.remaining_days
      ∧ db'.balances = updateFirst (balanceKey r.employee_id r.leave_type_id)
          (fun b => { b with remaining_days :=
              b.remaining_days - (businessDays r.start_date r.end_date : Int) })
          db.balances := by
  unfold approve_request at h
  split at h
  · exact (Except.noConfusion h)
  rename_i r hr
  split at h
  · exact (Except.noConfusion h)
  rename_i bal hb
  split at h
  · exact (Except.noConfusion h)
  rename_i hlt
  obtain rfl := (Except.ok.inj h)
  exact ⟨r, bal, hr, hb, by omega, rfl⟩

/-- C3: starting from a state where every balance is non-negative, each of
the three workflow operations — submit, approve, reject — leaves every
balance non-negative: submit and reject never write a balance, and the
approval debit is guarded by the sufficiency check, which otherwise fails
with the insufficient-balance error (the fourth conjunct). -/
theorem workflow_preserves_nonneg
    (db : DB) (hnn : ∀ b ∈ db.balances, 0 ≤ b.remaining_days) :
    (∀ emp dat today nid now db',
        create_leave_request db emp dat today nid now = .ok db' →
        ∀ b ∈ db'.balances, 0 ≤ b.remaining_days)
    ∧ (∀ m rid now db', approve_request db m rid now = .ok db' →
        ∀ b ∈ db'.balances, 0 ≤ b.remaining_days)
    ∧ (∀ m rid now db', reject_request db m rid now = .ok db' →
        ∀ b ∈ db'.balances, 0 ≤ b.remaining_days)
    ∧ (∀ m rid now r bal,
        db.requests.find? (pendingFor rid m) = some r →
        db.balances.find? (balanceKey r.employee_id r.leave_type_id) = some bal →
        bal.remaining_days < (businessDays r.start_date r.end_date : Int) →
        approve_request db m rid now = .error .insufficientBalance) := by
  refine ⟨?_, ?_, ?_, ?_⟩
  · intro emp dat today nid now db' h b hbmem
    obtain ⟨hbal, _, _, _⟩ := create_ok_frame db emp dat today nid now db' h
    rw [hbal] at hbmem
    exact hnn b hbmem
  · intro m rid now db' h b hbmem
    obtain ⟨r, bal, hr, hb, hge, hbal⟩ := approve_ok_inv db m rid now db' h
    obtain ⟨i, hi, hu⟩ := updateFirst_eq_set _ _ db.balances bal hb
    rw [hbal, hu] at hbmem
    rcases List.mem_or_eq_of_mem_set hbmem with hmem | rfl
    · exact hnn b hmem
    · dsimp only
      omega
  · intro m rid now db' h b hbmem
    obtain ⟨hbal, _, _, _⟩ := reject_ok_inv db m rid now db' h
    rw [hbal] at hbmem
    exact hnn b hbmem
  · intro m rid now r bal hr hb hlt
    unfold approve_request
    rw [hr]
    simp only []
    rw [hb]
    simp only []
    rw [if_pos hlt]

/-- `dbA` after rejecting its only request at instant 100. -/
def dbARejected : DB :=
  { dbA with requests := [{ reqA with status := .REJECTED, decided_at := some 100 }] }

/-- Witness for C3: in `dbA` every balance is non-negative, rejecting the
pending request succeeds, and the lone balance row is still non-negative
afterwards. -/
theorem workflow_preserves_nonneg_witness : (0 : Int) ≤ balA.remaining_days :=
  (workflow_preserves_nonneg dbA (by decide)).2.2.1 2 1 100 dbARejected (by rfl)
    balA (by decide)

theorem approve_notfound_iff (db : DB) (m rid now : Nat) :
    approve_request db m rid now = .error .requestNotFound ↔
      db.requests.find? (pendingFor rid m) = none := by
  constructor
  · intro h
    rcases hfr : db.requests.find? (pendingFor rid m) with _ | r
    · rfl
    · exfalso
      unfold approve_request at h
      rw [hfr] at h
      simp only [] at h
      rcases hfb : db.balances.find? (balanceKey r.employee_id r.leave_type_id) with _ | bal
      · rw [hfb] at h
        simp at h
      · rw [hfb] at h
        simp only [] at h
        by_cases hlt : bal.remaining_days < (businessDays r.start_date r.end_date : Int)
        · rw [if_pos hlt] at h
          simp at h
        · rw [if_neg hlt] at h
          simp at h
  · intro h
    unfold approve_request
    rw [h]

theorem reject_notfound_iff (db : DB) (m rid now : Nat) :
    reject_request db m rid now = .error .requestNotFound ↔
      db.requests.find? (pendingFor rid m) = none := by
  constructor
  · intro h
    rcases hfr : db.requests.find? (pendingFor rid m) with _ | r
    · rfl
    · exfalso
      unfold reject_request at h
      rw [hfr] at h
      simp at h
  · intro h
    unfold reject_request
    rw [h]

theorem approve_error_cases (db : DB) (m rid now : Nat) (e : ApiError)
    (h : approve_request db m rid now = .error e) :
    e = .requestNotFound ∨ e = .balanceNotFoundApprove ∨ e = .insufficientBalance := by
  unfold approve_request at h
  split at h
  · exact .inl (Except.error.inj h).symm
  split at h
  · exact .inr (.inl (Except.error.inj h).symm)
  split at h
  · exact .inr (.inr (Except.error.inj h).symm)
  · exact (Except.noConfusion h)

theorem reject_error_cases (db : DB) (m rid now : Nat) (e : ApiError)
    (h : reject_request db m rid now = .error e) : e = .requestNotFound := by
  unfold reject_request at h
  split at h
  · exact (Except.error.inj h).symm
  · exact (Except.noConfusion h)

/-- C5: a decision (approve or reject) fails with the 404 NotFound error
exactly when no request exists that has the given id, belongs to the
calling manager, and is still PENDING; a foreign or already-decided
request is indistinguishable from a missing one, no decision path ever
produces a 403 Forbidden status, and re-deciding a decided request always
yields the 404 error. -/
theorem decide_notfound_exactly
    (db : DB) (m rid now : Nat) :
    (approve_request db m rid now = .error .requestNotFound ↔
      ¬∃ r, r ∈ db.requests ∧ r.id = rid ∧ r.manager_id = m
        ∧ r.status = RequestStatus.PENDING)
    ∧ (reject_request db m rid now = .error .requestNotFound ↔
      ¬∃ r, r ∈ db.requests ∧ r.id = rid ∧ r.manager_id = m
        ∧ r.status = RequestStatus.PENDING)
    ∧ (∀ e, approve_request db m rid now = .error e → statusCode e ≠ 403)
    ∧ (∀ e, reject_request db m rid now = .error e → statusCode e ≠ 403)
    ∧ ((∀ r ∈ db.requests, r.id = rid → r.status ≠ RequestStatus.PENDING) →
        approve_request db m rid now = .error .requestNotFound
        ∧ reject_request db m rid now = .error .requestNotFound) := by
  have hbridge : (db.requests.find? (pendingFor rid m) = none) ↔
      ¬∃ r, r ∈ db.requests ∧ r.id = rid ∧ r.manager_id = m
        ∧ r.status = RequestStatus.PENDING := by
    rw [List.find?_eq_none]
    simp [pendingFor]
  refine ⟨(approve_notfound_iff db m rid now).trans hbridge,
    (reject_notfound_iff db m rid now).trans hbridge, ?_, ?_, ?_⟩
  · intro e h
    rcases approve_error_cases db m rid now e h with rfl | rfl | rfl <;> decide
  · intro e h
    rcases reject_error_cases db m rid now e h with rfl
    decide
  · intro hdec
    have hn : db.requests.find? (pendingFor rid m) = none := by
      rw [List.find?_eq_none]
      intro r hrm
      simp only [pendingFor, decide_eq_true_eq]
      rintro ⟨h1, _, h3⟩
      exact hdec r hrm h1 h3
    exact ⟨(approve_notfound_iff db m rid now).mpr hn,
      (reject_notfound_iff db m rid now).mpr hn⟩

/-- Witness for C5: in `dbA` no request has id 99, so both decision
handlers answer 404 for it. -/
theorem decide_notfound_exactly_witness :
    approve_request dbA 2 99 100 = .error .requestNotFound
    ∧ reject_request dbA 2 99 100 = .error .requestNotFound :=
  (decide_notfound_exactly dbA 2 99 100).2.2.2.2 (by decide)

/-- C7: a submission whose inclusive date range contains at least one
corporate holiday — and which passes the checks that the source runs
first: manager assigned, dates ordered, not in the past, at least one
business day — fails with the 422 conflict error carrying exactly the
holidays inside the range, whatever the balance table contains (no
hypothesis constrains `db.balances`, so a sufficient balance does not
help, and no days are silently subtracted). -/
theorem submit_holiday_conflict
    (db : DB) (emp : User) (dat : LeaveRequestCreate) (today nid now : Nat)
    (hmgr : emp.manager_id.getD 0 ≠ 0)
    (hord : dat.start_date ≤ dat.end_date)
    (hpast : today ≤ dat.start_date)
    (hdays : businessDays dat.start_date dat.end_date ≠ 0)
    (hhol : ∃ h ∈ db.holidays, dat.start_date ≤ h ∧ h ≤ dat.end_date) :
    ∃ ds, create_leave_request db emp dat today nid now = .error (.holidayConflict ds)
      ∧ ds ≠ []
      ∧ (∀ h, h ∈ ds ↔ h ∈ db.holidays ∧ dat.start_date ≤ h ∧ h ≤ dat.end_date)
      ∧ statusCode (.holidayConflict ds) = 422 := by
  have hne : db.holidays.filter
      (fun h => decide (dat.start_date ≤ h ∧ h ≤ dat.end_date)) ≠ [] := by
    obtain ⟨h0, hmem, hin⟩ := hhol
    intro hempty
    have hm : h0 ∈ db.holidays.filter
        (fun h => decide (dat.start_date ≤ h ∧ h ≤ dat.end_date)) := by
      rw [List.mem_filter]
      exact ⟨hmem, by simpa using hin⟩
    rw [hempty] at hm
    exact absurd hm (List.not_mem_nil h0)
  refine ⟨_, ?_, hne, ?_, rfl⟩
  · unfold create_leave_request
    rw [if_neg hmgr, if_neg (by omega), if_neg (by omega), if_neg hdays, if_pos hne]
  · intro h
    rw [List.mem_filter]
    simp

/-- `dbA` with a corporate holiday on ordinal 10 (the Wednesday between
Monday 8 and Friday 12). -/
def dbB : DB := { dbA with holidays := [10] }

/-- Witness for C7: submitting Monday 8 – Friday 12 over the holiday on
10 fails with the conflict error listing exactly that date, although the
employee has 10 remaining days for 5 requested. -/
theorem submit_holiday_conflict_witness :
    ∃ ds, create_leave_request dbB ⟨1, some 2⟩ ⟨1, 8, 12, none⟩ 8 2 0
        = .error (.holidayConflict ds)
      ∧ ds ≠ []
      ∧ (∀ h, h ∈ ds ↔ h ∈ dbB.holidays ∧ 8 ≤ h ∧ h ≤ 12)
      ∧ statusCode (.holidayConflict ds) = 422 := by
  apply submit_holiday_conflict dbB ⟨1, some 2⟩ ⟨1, 8, 12, none⟩ 8 2 0
    (by decide) (by decide) (by decide)
  · rw [businessDays_eval]
    decide
  · exact ⟨10, by decide, by decide⟩

/-- C9: any submission whose start date lies strictly before the current
date fails with a ValidationError-class error (HTTP 400) — one of the
three checks the source runs before anything else: missing manager, start
after end, start in the past — regardless of every other field, and
produces no state. -/
theorem submit_past_start_validation
    (db : DB) (emp : User) (dat : LeaveRequestCreate) (today nid now : Nat)
    (hpast : dat.start_date < today) :
    ∃ e, create_leave_request db emp dat today nid now = .error e
      ∧ isValidationError e = true ∧ statusCode e = 400 := by
  unfold create_leave_request
  by_cases h1 : emp.manager_id.getD 0 = 0
  · rw [if_pos h1]
    exact ⟨.noManager, rfl, rfl, rfl⟩
  · rw [if_neg h1]
    by_cases h2 : dat.end_date < dat.start_date
    · rw [if_pos h2]
      exact ⟨.startAfterEnd, rfl, rfl, rfl⟩
    · rw [if_neg h2, if_pos hpast]
      exact ⟨.pastStart, rfl, rfl, rfl⟩

/-- Witness for C9: submitting with start 5 before today 8 fails with a
400 validation error even though every other field is well formed and the
balance (10 days) would suffice. -/
theorem submit_past_start_validation_witness :
    ∃ e, create_leave_request dbA ⟨1, some 2⟩ ⟨1, 5, 12, none⟩ 8 2 0 = .error e
      ∧ isValidationError e = true ∧ statusCode e = 400 :=
  submit_past_start_validation dbA ⟨1, some 2⟩ ⟨1, 5, 12, none⟩ 8 2 0 (by decide)

/-- `dbA` with no balance rows at all. -/
def dbNoBal : DB := { dbA with balances := [] }

/-- C8 counterexample: the missing-balance failure of submit is raised
with `HTTP_400_BAD_REQUEST` (`api-employee-router.py` line 144), the same
status class the handler uses for its ValidationError checks — not the
404 status that the code reserves for NotFound errors (as in
`approve_request`, `reject_request` and the admin lookups).  So the claim
that submit fails with NotFoundError, as distinct from ValidationError,
is false on the code. -/
theorem submit_missing_balance_counterexample :
    create_leave_request dbNoBal ⟨1, some 2⟩ ⟨1, 8, 12, none⟩ 8 2 0
        = .error .balanceNotFoundSubmit
      ∧ statusCode .balanceNotFoundSubmit = 400
      ∧ statusCode .requestNotFound = 404
      ∧ statusCode .balanceNotFoundSubmit ≠ statusCode .requestNotFound := by
  have h5 : businessDays 8 12 = 5 := by
    rw [businessDays_eval]
    rfl
  refine ⟨?_, rfl, rfl, by decide⟩
  unfold create_leave_request
  rw [if_neg (by decide), if_neg (by decide), if_neg (by decide),
    if_neg (by simp [h5]), if_neg (by decide)]
  rfl

/-- C8 amended: a submission that passes the manager, ordering, past-date,
business-day and holiday checks but finds no balance row for the
employee and leave type fails with the missing-balance error at HTTP 400
(the ValidationError status class, with a not-found message), and no
request is persisted. -/
theorem submit_missing_balance_400
    (db : DB) (emp : User) (dat : LeaveRequestCreate) (today nid now : Nat)
    (hmgr : emp.manager_id.getD 0 ≠ 0)
    (hord : dat.start_date ≤ dat.end_date)
    (hpast : today ≤ dat.start_date)
    (hdays : businessDays dat.start_date dat.end_date ≠ 0)
    (hnohol : db.holidays.filter
      (fun h => decide (dat.start_date ≤ h ∧ h ≤ dat.end_date)) = [])
    (hnobal : db.balances.find? (balanceKey emp.id dat.leave_type_id) = none) :
    create_leave_request db emp dat today nid now = .error .balanceNotFoundSubmit
      ∧ statusCode ApiError.balanceNotFoundSubmit = 400
      ∧ ∀ db', create_leave_request db emp dat today nid now ≠ .ok db' := by
  have hmain : create_leave_request db emp dat today nid now
      = .error .balanceNotFoundSubmit := by
    unfold create_leave_request
    rw [if_neg hmgr, if_neg (by omega), if_neg (by omega), if_neg hdays,
      if_neg (by rw [hnohol]; simp), hnobal]
  refine ⟨hmain, rfl, fun db' hok => ?_⟩
  rw [hmain] at hok
  exact Except.noConfusion hok

/-- Witness for the amended C8 on the concrete no-balance state. -/
theorem submit_missing_balance_400_witness :
    create_leave_request dbNoBal ⟨1, some 2⟩ ⟨1, 8, 12, none⟩ 8 2 0
        = .error .balanceNotFoundSubmit
      ∧ statusCode ApiError.balanceNotFoundSubmit = 400 := by
  have h := submit_missing_balance_400 dbNoBal ⟨1, some 2⟩ ⟨1, 8, 12, none⟩ 8 2 0
    (by decide) (by decide) (by decide)
    (by rw [businessDays_eval]; decide) (by decide) (by decide)
  exact ⟨h.1, h.2.1⟩

/-- The read half of `approve_request` (`api-manager-router.py` lines
94-126) as executed by one database session: SELECT the PENDING request
owned by the caller, SELECT the employee's balance row, and fail if
`remaining_days < days_requested`.  On success the session holds the two
ORM objects in memory. -/
def approveRead (db : DB) (manager_id request_id : Nat) :
    Except ApiError (LeaveRequest × LeaveBalance) :=
  match db.requests.find? (pendingFor request_id manager_id) with
  | none => .error .requestNotFound
  | some request =>
    match db.balances.find? (balanceKey request.employee_id request.leave_type_id) with
    | none => .error .balanceNotFoundApprove
    | some balance =>
      if balance.remaining_days < (businessDays request.start_date request.end_date : Int) then
        .error .insufficientBalance
      else
        .ok (request, balance)

/-- The write half of `approve_request` (lines 128-133), acting on the
shared state from the session's in-memory objects: the ORM flushes
`UPDATE leave_requests SET status, decided_at WHERE <primary key>` and
`UPDATE leave_balances SET remaining_days = <value computed in Python
from the session's earlier read> WHERE <primary key>` — an absolute value,
not a relative decrement — then commits.  There is no `with_for_update`
row lock and no version check anywhere in the handler. -/
def approveWrite (db : DB) (request : LeaveRequest) (balance : LeaveBalance)
    (now : Nat) : DB :=
  { db with
    requests := updateFirst (fun r => decide (r.id = request.id))
      (fun r => { r with status := .APPROVED, decided_at := some now }) db.requests
    balances := updateFirst (balanceKey balance.user_id balance.leave_type_id)
      (fun b => { b with remaining_days :=
          balance.remaining_days
            - (businessDays request.start_date request.end_date : Int) })
      db.balances }

theorem approveRead_ok (db : DB) (m rid : Nat) (r : LeaveRequest) (bal : LeaveBalance)
    (hr : db.requests.find? (pendingFor rid m) = some r)
    (hb : db.balances.find? (balanceKey r.employee_id r.leave_type_id) = some bal)
    (hsuff : (businessDays r.start_date r.end_date : Int) ≤ bal.remaining_days) :
    approveRead db m rid = .ok (r, bal) := by
  unfold approveRead
  rw [hr]
  simp only []
  rw [hb]
  simp only []
  rw [if_neg (by omega)]

/-- Two PENDING requests of employee 1, both owned by manager 2, both for
leave type 1 and Monday ordinal 8 through Wednesday ordinal 17 — 8
business days each. -/
def reqB1 : LeaveRequest :=
  { id := 1, employee_id := 1, manager_id := 2, leave_type_id := 1,
    start_date := 8, end_date := 17, status := .PENDING, notes := none,
    requested_at := 0, decided_at := none }

/-- The second of the two requests, identical except for its id. -/
def reqB2 : LeaveRequest := { reqB1 with id := 2 }

/-- Employee 1 has 10 remaining days — enough for either request alone,
not for both. -/
def balB : LeaveBalance := ⟨1, 1, 10⟩

/-- The state holding both PENDING requests and the 10-day balance. -/
def dbRace : DB :=
  { users := [⟨1, some 2⟩, ⟨2, none⟩], leaveTypes := [⟨1, 20⟩],
    requests := [reqB1, reqB2], balances := [balB], holidays := [] }

/-- On the initial state, one full sequential approval is exactly its read
half followed by its write half — the split used in the race theorem
composes back to the handler. -/
theorem approve_request_eq_read_then_write :
    approveRead dbRace 2 1 = .ok (reqB1, balB)
    ∧ approve_request dbRace 2 1 100 = .ok (approveWrite dbRace reqB1 balB 100) := by
  have h8 : businessDays reqB1.start_date reqB1.end_date = 8 := by
    rw [businessDays_eval]
    rfl
  constructor
  · exact approveRead_ok dbRace 2 1 reqB1 balB rfl rfl (by rw [h8]; decide)
  · unfold approve_request approveWrite
    rw [show dbRace.requests.find? (pendingFor 1 2) = some reqB1 from rfl]
    simp only []
    rw [show dbRace.balances.find?
        (balanceKey reqB1.employee_id reqB1.leave_type_id) = some balB from rfl]
    simp only []
    rw [if_neg (by rw [h8]; decide)]
    rw [h8]
    rfl

/-- C4, refuted on the code: under the interleaving read-A, read-B,
write-A, write-B — the schedule two concurrent sessions produce at
read-committed isolation, which is all the handler requests, with no row
lock and no version column — both approvals pass their sufficiency check
against the same initial balance of 10, both writes commit, and the final
state has both requests APPROVED with the balance at 10 - 8 = 2, although
the two requests total 16 > 10 business days.  The claim (and section 5
of the spec) requires exactly one success and one insufficient-balance
failure, never both succeeding. -/
theorem approve_race_both_succeed :
    approveRead dbRace 2 1 = .ok (reqB1, balB)
    ∧ approveRead dbRace 2 2 = .ok (reqB2, balB)
    ∧ balB.remaining_days
        < (businessDays reqB1.start_date reqB1.end_date : Int)
          + (businessDays reqB2.start_date reqB2.end_date : Int)
    ∧ (approveWrite (approveWrite dbRace reqB1 balB 100) reqB2 balB 101).requests
        = [{ reqB1 with status := .APPROVED, decided_at := some 100 },
           { reqB2 with status := .APPROVED, decided_at := some 101 }]
    ∧ (approveWrite (approveWrite dbRace reqB1 balB 100) reqB2 balB 101).balances
        = [⟨1, 1, 2⟩] := by
  have h1 : businessDays reqB1.start_date reqB1.end_date = 8 := by
    rw [businessDays_eval]
    rfl
  have h2 : businessDays reqB2.start_date reqB2.end_date = 8 := by
    rw [businessDays_eval]
    rfl
  refine ⟨approveRead_ok dbRace 2 1 reqB1 balB rfl rfl (by rw [h1]; decide),
    approveRead_ok dbRace 2 2 reqB2 balB rfl rfl (by rw [h2]; decide),
    by rw [h1, h2]; decide, ?_, ?_⟩
  · unfold approveWrite
    rw [h1, h2]
    decide
  · unfold approveWrite
    rw [h1, h2]
    decide

/-- Witness for C10 at `start_date = 5 > 3 = end_date`. -/
theorem businessDays_total_witness :
    (3 : Nat) < 5 ∧ businessDays 5 3 = 0 ∧ 0 ≤ (businessDays 5 3 : Int)
    ∧ businessDays 5 3 ≤ 3 + 1 - 5 := by
  obtain ⟨h1, h2, h3⟩ := businessDays_total 5 3
  exact ⟨by decide, h1 (by decide), h2, h3⟩

end LMS
